import Mathlib

/-!
Verification of the structure-tensor page (src/pages/structuretensor.vue).

The script section of the page is shallowly embedded here:
* JS numbers are idealised as exact arithmetic: `ℚ` for the integer/rational
  stages (grayscale weights, Sobel convolution, eigenvalue display), `ℝ` where
  the Gaussian (`Math.exp`, `Math.PI`) enters.
* JS arrays become `List`s; the in-place writes of `computeGradients` become a
  left fold of `List.set` operations over the row-major list of interior
  coordinates (exactly the write sequence of the two nested `for` loops).
* the `throw` in `generateGaussianKernel` becomes `Except.error`.
-/

namespace StructTensor

/-- The only construction-time failure of the page: `generateGaussianKernel`
throws when `size` is even ("Size must be an odd integer."). -/
inductive KernelError where
  | invalidParameter
  deriving DecidableEq

/-- One entry of the unnormalised Gaussian table, from `generateGaussianKernel`:
the loop pushes entries y-major, so flat index `i` has `x = i % size`,
`y = i / size`; `mean = Math.floor(size / 2)`, and the value is
`(1 / (2π σ²)) · exp(-(dx² + dy²) / (2σ²))` with `dx = x - mean`, `dy = y - mean`. -/
noncomputable def gaussValue (size : ℕ) (sigma : ℝ) (i : ℕ) : ℝ :=
  let mean : ℕ := size / 2
  let dx : ℝ := ((i % size : ℕ) : ℝ) - (mean : ℝ)
  let dy : ℝ := ((i / size : ℕ) : ℝ) - (mean : ℝ)
  1 / (2 * Real.pi * (sigma * sigma)) * Real.exp (-(dx * dx + dy * dy) / (2 * (sigma * sigma)))

/-- The unnormalised kernel list built by the double loop of
`generateGaussianKernel` (y outer, x inner, `kernel.push(value)`). -/
noncomputable def rawKernel (size : ℕ) (sigma : ℝ) : List ℝ :=
  (List.range (size * size)).map (gaussValue size sigma)

/-- `generateGaussianKernel(size, sigma)`: throws if `size` is even, otherwise
builds the `size×size` table and divides every entry by the running `sum`
(`kernel.map(value => value / sum)`). -/
noncomputable def generateGaussianKernel (size : ℕ) (sigma : ℝ) :
    Except KernelError (List ℝ) :=
  if size % 2 = 0 then Except.error KernelError.invalidParameter
  else
    let k := rawKernel size sigma
    Except.ok (k.map (fun v => v / k.sum))

lemma sum_map_div (l : List ℝ) (s : ℝ) :
    (l.map (fun v => v / s)).sum = l.sum / s := by
  induction l with
  | nil => simp
  | cons a t ih => simp [ih, add_div]

lemma gaussValue_pos (size : ℕ) (sigma : ℝ) (hσ : 0 < sigma) (i : ℕ) :
    0 < gaussValue size sigma i := by
  have hπ : (0 : ℝ) < 2 * Real.pi * (sigma * sigma) := by positivity
  have := Real.exp_pos
    (-((((i % size : ℕ) : ℝ) - ((size / 2 : ℕ) : ℝ)) * (((i % size : ℕ) : ℝ) - ((size / 2 : ℕ) : ℝ)) +
        (((i / size : ℕ) : ℝ) - ((size / 2 : ℕ) : ℝ)) * (((i / size : ℕ) : ℝ) - ((size / 2 : ℕ) : ℝ))) /
      (2 * (sigma * sigma)))
  unfold gaussValue
  positivity

lemma rawKernel_length (size : ℕ) (sigma : ℝ) :
    (rawKernel size sigma).length = size * size := by
  simp [rawKernel]

lemma rawKernel_sum_pos (size : ℕ) (sigma : ℝ) (hσ : 0 < sigma) (h1 : 1 ≤ size) :
    0 < (rawKernel size sigma).sum := by
  apply List.sum_pos
  · intro a ha
    rcases List.mem_map.mp ha with ⟨i, _, rfl⟩
    exact gaussValue_pos size sigma hσ i
  · have : (rawKernel size sigma).length ≠ 0 := by
      rw [rawKernel_length]
      exact Nat.mul_ne_zero (by omega) (by omega)
    exact fun hnil => this (by simp [hnil])

/-- Claim C4: for every odd `size` in `[1, 51]` and `sigma` in `[0.1, 30]`,
the Gaussian kernel built from `(size, sigma)` is a `size*size` table of
non-negative weights whose sum equals 1 within `1e-9` (here: exactly 1 in
exact arithmetic, hence within the tolerance). -/
theorem gaussianKernel_normalized (size : ℕ) (sigma : ℝ) (hodd : size % 2 = 1)
    (h1 : 1 ≤ size) (h51 : size ≤ 51) (hs1 : 1 / 10 ≤ sigma) (hs30 : sigma ≤ 30) :
    ∃ k, generateGaussianKernel size sigma = Except.ok k ∧
      k.length = size * size ∧ (∀ w ∈ k, 0 ≤ w) ∧ |k.sum - 1| ≤ 1 / 1000000000 := by
  have hσ : 0 < sigma := lt_of_lt_of_le (by norm_num) hs1
  have hne : ¬ size % 2 = 0 := by omega
  refine ⟨(rawKernel size sigma).map (fun v => v / (rawKernel size sigma).sum), ?_, ?_, ?_, ?_⟩
  · simp [generateGaussianKernel, hne]
  · simp [rawKernel_length]
  · intro w hw
    rcases List.mem_map.mp hw with ⟨v, hv, rfl⟩
    rcases List.mem_map.mp hv with ⟨i, _, rfl⟩
    exact le_of_lt (div_pos (gaussValue_pos size sigma hσ i) (rawKernel_sum_pos size sigma hσ h1))
  · rw [sum_map_div, div_self (ne_of_gt (rawKernel_sum_pos size sigma hσ h1))]
    norm_num

/-- Witness for C4 at `(size, sigma) = (3, 1)`. -/
theorem gaussianKernel_normalized_witness :
    ∃ k, generateGaussianKernel 3 1 = Except.ok k ∧
      k.length = 3 * 3 ∧ (∀ w ∈ k, 0 ≤ w) ∧ |k.sum - 1| ≤ 1 / 1000000000 :=
  gaussianKernel_normalized 3 1 (by decide) (by decide) (by decide)
    (by norm_num) (by norm_num)

/-- Claim C9: building a Gaussian kernel with an even size fails with the
`InvalidParameter` error, for every even size (and every sigma). -/
theorem evenKernelSizeFails (size : ℕ) (sigma : ℝ) (heven : size % 2 = 0) :
    generateGaussianKernel size sigma = Except.error KernelError.invalidParameter := by
  simp [generateGaussianKernel, heven]

/-- Witness for C9 at the claim's particular input `size = 4`. -/
theorem evenKernelSizeFails_witness :
    generateGaussianKernel 4 1 = Except.error KernelError.invalidParameter :=
  evenKernelSizeFails 4 1 (by decide)

/-- Claim C3 counterexample: `size = 53` is outside `[1, 51]` (with `sigma = 3`
inside `[0.1, 30]`), yet kernel construction succeeds — the code checks only
evenness, not the ranges. -/
theorem outOfRangeKernel_accepted :
    ¬ (53 : ℕ) ≤ 51 ∧ ∃ k, generateGaussianKernel 53 3 = Except.ok k := by
  refine ⟨by decide, ?_, ?_⟩
  · exact (rawKernel 53 3).map (fun v => v / (rawKernel 53 3).sum)
  · simp [generateGaussianKernel]

/-- Claim C3 amended: kernel construction fails with `InvalidParameter` exactly
when the requested size is even; out-of-range size or sigma values are not
rejected by construction (the `[1,51]` / `[0.1,30]` limits are only the host
UI's slider bounds). -/
theorem kernelFails_iff_even (size : ℕ) (sigma : ℝ) :
    generateGaussianKernel size sigma = Except.error KernelError.invalidParameter ↔
      size % 2 = 0 := by
  constructor
  · intro h
    by_contra hne
    simp [generateGaussianKernel, hne] at h
  · intro h
    simp [generateGaussianKernel, h]

/-- `getGray(x, y)` from `computeGradients`: reads the RGBA buffer at
`idx = (y * width + x) * 4` and returns `0.3·R + 0.59·G + 0.11·B`
(alpha at `idx + 3` ignored). The buffer is modelled as a total function
from byte index to byte value. -/
def getGray (width : ℕ) (data : ℕ → ℕ) (x y : ℕ) : ℚ :=
  let idx := (y * width + x) * 4
  3 / 10 * (data idx : ℚ) + 59 / 100 * (data (idx + 1) : ℚ) + 11 / 100 * (data (idx + 2) : ℚ)

/-- The Sobel x-kernel of `computeGradients`. -/
def sobelX : List ℤ := [-1, 0, 1, -2, 0, 2, -1, 0, 1]

/-- The Sobel y-kernel of `computeGradients`. -/
def sobelY : List ℤ := [-1, -2, -1, 0, 0, 0, 1, 2, 1]

/-- The value `gx` accumulated at interior pixel `(x, y)`: the source loops
`ky, kx ∈ {-1,0,1}` and adds `getGray(x+kx, y+ky) * sobelX[(ky+1)*3+(kx+1)]`;
here the offsets are shifted to `{0,1,2}` (so the pixel read is
`(x + kx - 1, y + ky - 1)`, defined since `x, y ≥ 1` at every use). -/
def gradXat (width : ℕ) (data : ℕ → ℕ) (x y : ℕ) : ℚ :=
  ∑ ky in Finset.range 3, ∑ kx in Finset.range 3,
    getGray width data (x + kx - 1) (y + ky - 1) * ((sobelX.getD (ky * 3 + kx) 0 : ℤ) : ℚ)

/-- The value `gy` accumulated at interior pixel `(x, y)` (same loop with
`sobelY`). -/
def gradYat (width : ℕ) (data : ℕ → ℕ) (x y : ℕ) : ℚ :=
  ∑ ky in Finset.range 3, ∑ kx in Finset.range 3,
    getGray width data (x + kx - 1) (y + ky - 1) * ((sobelY.getD (ky * 3 + kx) 0 : ℤ) : ℚ)

/-- One iteration of the inner loop body of `computeGradients`:
`Ix[index] = gx; Iy[index] = gy` at `index = y * width + x`. -/
def writeGrads (width : ℕ) (data : ℕ → ℕ) (acc : List ℚ × List ℚ) (p : ℕ × ℕ) :
    List ℚ × List ℚ :=
  (acc.1.set (p.2 * width + p.1) (gradXat width data p.1 p.2),
   acc.2.set (p.2 * width + p.1) (gradYat width data p.1 p.2))

/-- The row-major list of interior coordinates visited by the two nested
loops of `computeGradients` (`y` from `1` to `height-2` outer, `x` from `1`
to `width-2` inner). -/
def gradPairs (width height : ℕ) : List (ℕ × ℕ) :=
  (List.range' 1 (height - 2)).foldr
    (fun y acc => ((List.range' 1 (width - 2)).map (fun x => (x, y))) ++ acc) []

/-- `computeGradients()`: initialises `Ix`, `Iy` to `width*height` zeros and
performs the interior writes in loop order. -/
def computeGradients (width height : ℕ) (data : ℕ → ℕ) : List ℚ × List ℚ :=
  (gradPairs width height).foldl (writeGrads width data)
    (List.replicate (width * height) 0, List.replicate (width * height) 0)

lemma mem_gradPairs (width height : ℕ) (p : ℕ × ℕ) :
    p ∈ gradPairs width height ↔
      (1 ≤ p.1 ∧ p.1 < width - 1 ∧ 1 ≤ p.2 ∧ p.2 < height - 1) := by
  have key : ∀ (ys : List ℕ),
      p ∈ ys.foldr
        (fun y acc => ((List.range' 1 (width - 2)).map (fun x => (x, y))) ++ acc) [] ↔
      (p.1 ∈ List.range' 1 (width - 2) ∧ p.2 ∈ ys) := by
    intro ys
    induction ys with
    | nil => simp
    | cons y t ih =>
      simp only [List.foldr_cons, List.mem_append, ih, List.mem_cons, List.mem_map]
      constructor
      · rintro (⟨x, hx, rfl⟩ | ⟨h1, h2⟩)
        · exact ⟨hx, Or.inl rfl⟩
        · exact ⟨h1, Or.inr h2⟩
      · rintro ⟨h1, rfl | h2⟩
        · exact Or.inl ⟨p.1, h1, rfl⟩
        · exact Or.inr ⟨h1, h2⟩
  rw [gradPairs, key, List.mem_range'_1, List.mem_range'_1]
  omega

lemma foldl_writeGrads_length (width : ℕ) (data : ℕ → ℕ) (ps : List (ℕ × ℕ)) :
    ∀ acc : List ℚ × List ℚ,
      (ps.foldl (writeGrads width data) acc).1.length = acc.1.length ∧
      (ps.foldl (writeGrads width data) acc).2.length = acc.2.length := by
  induction ps with
  | nil => intro acc; exact ⟨rfl, rfl⟩
  | cons q t ih =>
    intro acc
    rcases ih (writeGrads width data acc q) with ⟨h1, h2⟩
    simp only [List.foldl_cons]
    rw [h1, h2]
    simp [writeGrads]

lemma foldl_writeGrads_untouched (width : ℕ) (data : ℕ → ℕ) (ps : List (ℕ × ℕ))
    (i : ℕ) :
    ∀ acc : List ℚ × List ℚ, (∀ q ∈ ps, q.2 * width + q.1 ≠ i) →
      (ps.foldl (writeGrads width data) acc).1.getD i 0 = acc.1.getD i 0 ∧
      (ps.foldl (writeGrads width data) acc).2.getD i 0 = acc.2.getD i 0 := by
  induction ps with
  | nil => intro acc _; exact ⟨rfl, rfl⟩
  | cons q t ih =>
    intro acc hq
    have hqi : q.2 * width + q.1 ≠ i := hq q (List.mem_cons_self q t)
    have ht : ∀ r ∈ t, r.2 * width + r.1 ≠ i := fun r hr => hq r (List.mem_cons_of_mem q hr)
    rcases ih (writeGrads width data acc q) ht with ⟨h1, h2⟩
    simp only [List.foldl_cons]
    rw [h1, h2]
    constructor
    · simp [writeGrads, List.getD_eq_getElem?_getD, List.getElem?_set_ne hqi]
    · simp [writeGrads, List.getD_eq_getElem?_getD, List.getElem?_set_ne hqi]

lemma foldl_writeGrads_write (width : ℕ) (data : ℕ → ℕ) (ps : List (ℕ × ℕ))
    (x y : ℕ) :
    ∀ acc : List ℚ × List ℚ, (x, y) ∈ ps →
      (∀ q ∈ ps, q.2 * width + q.1 = y * width + x → q = (x, y)) →
      y * width + x < acc.1.length → y * width + x < acc.2.length →
      (ps.foldl (writeGrads width data) acc).1.getD (y * width + x) 0 =
        gradXat width data x y ∧
      (ps.foldl (writeGrads width data) acc).2.getD (y * width + x) 0 =
        gradYat width data x y := by
  induction ps with
  | nil => intro acc h; simp at h
  | cons q t ih =>
    intro acc hmem huniq hlen1 hlen2
    by_cases hxy : (x, y) ∈ t
    · refine ih (writeGrads width data acc q) hxy
        (fun r hr h => huniq r (List.mem_cons_of_mem q hr) h) ?_ ?_
      · simpa [writeGrads] using hlen1
      · simpa [writeGrads] using hlen2
    · have hq : q = (x, y) := by
        rcases List.mem_cons.mp hmem with h | h
        · exact h.symm
        · exact absurd h hxy
      subst hq
      have ht : ∀ r ∈ t, r.2 * width + r.1 ≠ y * width + x := by
        intro r hr h
        exact hxy (huniq r (List.mem_cons_of_mem _ hr) h ▸ hr)
      rcases foldl_writeGrads_untouched width data t (y * width + x)
        (writeGrads width data acc (x, y)) ht with ⟨h1, h2⟩
      simp only [List.foldl_cons]
      rw [h1, h2]
      constructor
      · simp [writeGrads, List.getD_eq_getElem?_getD, List.getElem?_set_self,
          hlen1]
      · simp [writeGrads, List.getD_eq_getElem?_getD, List.getElem?_set_self,
          hlen2]

lemma computeGradients_length (width height : ℕ) (data : ℕ → ℕ) :
    (computeGradients width height data).1.length = width * height ∧
    (computeGradients width height data).2.length = width * height := by
  rcases foldl_writeGrads_length width data (gradPairs width height)
    (List.replicate (width * height) 0, List.replicate (width * height) 0) with ⟨h1, h2⟩
  rw [computeGradients]
  constructor
  · rw [h1]; simp
  · rw [h2]; simp

lemma index_uniq (width x y x' y' : ℕ) (hx : x < width) (hx' : x' < width)
    (h : y' * width + x' = y * width + x) : x' = x ∧ y' = y := by
  have hw : 0 < width := by omega
  have h1 : (y' * width + x') % width = x' := by
    rw [Nat.add_comm, Nat.add_mul_mod_self_right, Nat.mod_eq_of_lt hx']
  have h2 : (y * width + x) % width = x := by
    rw [Nat.add_comm, Nat.add_mul_mod_self_right, Nat.mod_eq_of_lt hx]
  have hxx : x' = x := by rw [← h1, h, h2]
  subst hxx
  have : y' * width = y * width := by omega
  exact ⟨rfl, Nat.eq_of_mul_eq_mul_right hw this⟩

lemma idx_lt (width height x y : ℕ) (hx : x < width) (hy : y < height) :
    y * width + x < width * height := by
  calc y * width + x < y * width + width := by omega
    _ = (y + 1) * width := by ring
    _ ≤ height * width := Nat.mul_le_mul_right width hy
    _ = width * height := Nat.mul_comm height width

lemma computeGradients_interior (width height : ℕ) (data : ℕ → ℕ) (x y : ℕ)
    (hx1 : 1 ≤ x) (hx2 : x < width - 1) (hy1 : 1 ≤ y) (hy2 : y < height - 1) :
    (computeGradients width height data).1.getD (y * width + x) 0 =
      gradXat width data x y ∧
    (computeGradients width height data).2.getD (y * width + x) 0 =
      gradYat width data x y := by
  have hxw : x < width := by omega
  have hyh : y < height := by omega
  refine foldl_writeGrads_write width data (gradPairs width height) x y _ ?_ ?_ ?_ ?_
  · exact (mem_gradPairs width height (x, y)).mpr ⟨hx1, hx2, hy1, hy2⟩
  · intro q hq h
    rcases (mem_gradPairs width height q).mp hq with ⟨ha, hb, hc, hd⟩
    rcases index_uniq width x y q.1 q.2 hxw (by omega) h with ⟨h1, h2⟩
    exact Prod.ext h1 h2
  · rw [List.length_replicate]; exact idx_lt width height x y hxw hyh
  · rw [List.length_replicate]; exact idx_lt width height x y hxw hyh

lemma computeGradients_border (width height : ℕ) (data : ℕ → ℕ) (x y : ℕ)
    (hxw : x < width) (hyh : y < height)
    (hb : ¬ (1 ≤ x ∧ x < width - 1 ∧ 1 ≤ y ∧ y < height - 1)) :
    (computeGradients width height data).1.getD (y * width + x) 0 = 0 ∧
    (computeGradients width height data).2.getD (y * width + x) 0 = 0 := by
  have huntouched : ∀ q ∈ gradPairs width height, q.2 * width + q.1 ≠ y * width + x := by
    intro q hq h
    rcases (mem_gradPairs width height q).mp hq with ⟨ha, hb', hc, hd⟩
    rcases index_uniq width x y q.1 q.2 hxw (by omega) h with ⟨h1, h2⟩
    exact hb ⟨by omega, by omega, by omega, by omega⟩
  rcases foldl_writeGrads_untouched width data (gradPairs width height)
    (y * width + x)
    (List.replicate (width * height) 0, List.replicate (width * height) 0)
    huntouched with ⟨h1, h2⟩
  rw [computeGradients]
  rw [h1, h2]
  constructor <;> simp [List.getD_eq_getElem?_getD, List.getElem?_replicate]
  <;> split <;> simp

/-- Claim C5: for every pixel `(x, y)` of a `width × height` RGBA image, the
gradient arrays of `computeGradients` hold, at flat index `y*width + x`, the
Sobel convolution `Σ getGray(x+kx, y+ky)·Sx[kx,ky]` (resp. `Sy`) over the 3×3
neighborhood when the pixel is interior (`1 ≤ x < width-1`, `1 ≤ y < height-1`),
and `0` when the pixel is on the border. -/
theorem gradients_sobel_spec (width height : ℕ) (data : ℕ → ℕ) (x y : ℕ)
    (hxw : x < width) (hyh : y < height) :
    (computeGradients width height data).1.getD (y * width + x) 0 =
      (if 1 ≤ x ∧ x < width - 1 ∧ 1 ≤ y ∧ y < height - 1 then
        gradXat width data x y else 0) ∧
    (computeGradients width height data).2.getD (y * width + x) 0 =
      (if 1 ≤ x ∧ x < width - 1 ∧ 1 ≤ y ∧ y < height - 1 then
        gradYat width data x y else 0) := by
  by_cases h : 1 ≤ x ∧ x < width - 1 ∧ 1 ≤ y ∧ y < height - 1
  · rcases computeGradients_interior width height data x y h.1 h.2.1 h.2.2.1 h.2.2.2 with ⟨h1, h2⟩
    rw [if_pos h, if_pos h]
    exact ⟨h1, h2⟩
  · rcases computeGradients_border width height data x y hxw hyh h with ⟨h1, h2⟩
    rw [if_neg h, if_neg h]
    exact ⟨h1, h2⟩

lemma getGray_const (width height : ℕ) (data : ℕ → ℕ) (r g b : ℕ)
    (hc : ∀ p, p < width * height → data (4 * p) = r ∧ data (4 * p + 1) = g ∧
      data (4 * p + 2) = b)
    (x y : ℕ) (hx : x < width) (hy : y < height) :
    getGray width data x y =
      3 / 10 * (r : ℚ) + 59 / 100 * (g : ℚ) + 11 / 100 * (b : ℚ) := by
  have hp : y * width + x < width * height := idx_lt width height x y hx hy
  rcases hc (y * width + x) hp with ⟨h1, h2, h3⟩
  rw [getGray]
  rw [Nat.mul_comm (y * width + x) 4]
  rw [h1, h2, h3]

lemma grad_const_zero (width height : ℕ) (data : ℕ → ℕ) (r g b : ℕ)
    (hc : ∀ p, p < width * height → data (4 * p) = r ∧ data (4 * p + 1) = g ∧
      data (4 * p + 2) = b)
    (x y : ℕ) (hx1 : 1 ≤ x) (hx2 : x < width - 1) (hy1 : 1 ≤ y) (hy2 : y < height - 1) :
    gradXat width data x y = 0 ∧ gradYat width data x y = 0 := by
  have hg : ∀ kx ky, kx < 3 → ky < 3 →
      getGray width data (x + kx - 1) (y + ky - 1) =
        3 / 10 * (r : ℚ) + 59 / 100 * (g : ℚ) + 11 / 100 * (b : ℚ) := by
    intro kx ky hkx hky
    exact getGray_const width height data r g b hc _ _ (by omega) (by omega)
  constructor
  · rw [gradXat]
    rw [Finset.sum_range_succ, Finset.sum_range_succ, Finset.sum_range_succ]
    rw [Finset.sum_range_succ, Finset.sum_range_succ, Finset.sum_range_succ]
    rw [Finset.sum_range_succ, Finset.sum_range_succ, Finset.sum_range_succ]
    rw [Finset.sum_range_succ, Finset.sum_range_succ, Finset.sum_range_succ]
    simp only [Finset.sum_range_zero]
    rw [hg 0 0 (by omega) (by omega), hg 1 0 (by omega) (by omega),
      hg 2 0 (by omega) (by omega), hg 0 1 (by omega) (by omega),
      hg 1 1 (by omega) (by omega), hg 2 1 (by omega) (by omega),
      hg 0 2 (by omega) (by omega), hg 1 2 (by omega) (by omega),
      hg 2 2 (by omega) (by omega)]
    simp [sobelX]
    ring
  · rw [gradYat]
    rw [Finset.sum_range_succ, Finset.sum_range_succ, Finset.sum_range_succ]
    rw [Finset.sum_range_succ, Finset.sum_range_succ, Finset.sum_range_succ]
    rw [Finset.sum_range_succ, Finset.sum_range_succ, Finset.sum_range_succ]
    rw [Finset.sum_range_succ, Finset.sum_range_succ, Finset.sum_range_succ]
    simp only [Finset.sum_range_zero]
    rw [hg 0 0 (by omega) (by omega), hg 1 0 (by omega) (by omega),
      hg 2 0 (by omega) (by omega), hg 0 1 (by omega) (by omega),
      hg 1 1 (by omega) (by omega), hg 2 1 (by omega) (by omega),
      hg 0 2 (by omega) (by omega), hg 1 2 (by omega) (by omega),
      hg 2 2 (by omega) (by omega)]
    simp [sobelY]
    ring

/-- Claim C6: for every constant-intensity image (every pixel has the same
RGB triple `(r, g, b)`), both gradient arrays of `computeGradients` are
identically zero, at border and interior pixels alike (and `getD` returns the
default `0` beyond the arrays as well, so the statement covers every index). -/
theorem constant_image_zero_gradients (width height : ℕ) (data : ℕ → ℕ) (r g b : ℕ)
    (hc : ∀ p, p < width * height → data (4 * p) = r ∧ data (4 * p + 1) = g ∧
      data (4 * p + 2) = b) :
    ∀ i, (computeGradients width height data).1.getD i 0 = 0 ∧
      (computeGradients width height data).2.getD i 0 = 0 := by
  intro i
  by_cases hi : i < width * height
  · have hw : 0 < width := by
      rcases Nat.eq_zero_or_pos width with h | h
      · subst h; simp at hi
      · exact h
    set x := i % width with hxdef
    set y := i / width with hydef
    have hxw : x < width := Nat.mod_lt i hw
    have hyh : y < height := by
      rw [hydef]
      exact Nat.div_lt_of_lt_mul (by omega)
    have hidx : i = y * width + x := by
      rw [hxdef, hydef, Nat.mul_comm]
      exact (Nat.div_add_mod i width).symm
    rw [hidx]
    by_cases hint : 1 ≤ x ∧ x < width - 1 ∧ 1 ≤ y ∧ y < height - 1
    · rcases computeGradients_interior width height data x y hint.1 hint.2.1
        hint.2.2.1 hint.2.2.2 with ⟨h1, h2⟩
      rcases grad_const_zero width height data r g b hc x y hint.1 hint.2.1
        hint.2.2.1 hint.2.2.2 with ⟨z1, z2⟩
      exact ⟨h1.trans z1, h2.trans z2⟩
    · exact computeGradients_border width height data x y hxw hyh hint
  · rcases computeGradients_length width height data with ⟨hl1, hl2⟩
    constructor
    · exact List.getD_eq_default _ _ (by omega)
    · exact List.getD_eq_default _ _ (by omega)

/-- A concrete constant image (every byte 7, so every pixel is RGB `(7,7,7)`)
for the C6 witness. -/
def flatImg : ℕ → ℕ := fun _ => 7

/-- Witness for C6: on a constant 3×3 image the gradient arrays hold `0`,
checked at the interior index `4 = 1*3 + 1`. -/
theorem constant_image_zero_gradients_witness :
    (computeGradients 3 3 flatImg).1.getD 4 0 = 0 ∧
    (computeGradients 3 3 flatImg).2.getD 4 0 = 0 :=
  constant_image_zero_gradients 3 3 flatImg 7 7 7
    (fun p _ => ⟨rfl, rfl, rfl⟩) 4

/-- A concrete non-constant test image for the C5 witness. -/
def rampImg : ℕ → ℕ := fun i => i

/-- Witness for C5 on a 3×3 image at the (interior) pixel `(1, 1)`. -/
theorem gradients_sobel_spec_witness :
    (computeGradients 3 3 rampImg).1.getD (1 * 3 + 1) 0 =
      (if 1 ≤ 1 ∧ 1 < 3 - 1 ∧ 1 ≤ 1 ∧ 1 < 3 - 1 then
        gradXat 3 rampImg 1 1 else 0) ∧
    (computeGradients 3 3 rampImg).2.getD (1 * 3 + 1) 0 =
      (if 1 ≤ 1 ∧ 1 < 3 - 1 ∧ 1 ≤ 1 ∧ 1 < 3 - 1 then
        gradYat 3 rampImg 1 1 else 0) :=
  gradients_sobel_spec 3 3 rampImg 1 1 (by decide) (by decide)

/-- The coordinate clamp of `applyGaussian` (and of the kernel-overlay drawing):
`Math.min(Math.max(v, 0), n - 1)`. -/
def clampPix (v : ℤ) (n : ℕ) : ℤ := min (max v 0) ((n : ℤ) - 1)

/-- `applyGaussian(x, y, componentArray)` from `computeEigenvectors`: loops
`ky, kx` from `-halfKernel` to `halfKernel` (`halfKernel = Math.floor(size/2)`,
here shifted to `j, i ∈ [0, 2·(size/2)]`), clamps each sampled coordinate into
`[0, width-1] × [0, height-1]`, and accumulates
`componentArray[pixelY*width + pixelX] * kernel[(ky+half)*size + (kx+half)]`. -/
noncomputable def applyGaussian (width height size : ℕ) (kernel : List ℝ)
    (x y : ℤ) (component : List ℝ) : ℝ :=
  ∑ j in Finset.range (2 * (size / 2) + 1), ∑ i in Finset.range (2 * (size / 2) + 1),
    component.getD
      ((clampPix (y + ((j : ℤ) - ((size / 2 : ℕ) : ℤ))) height * (width : ℤ) +
        clampPix (x + ((i : ℤ) - ((size / 2 : ℕ) : ℤ))) width).toNat) 0 *
    kernel.getD (j * size + i) 0

/-- The structure tensor `(Ixx, Ixy, Iyy)` computed by `computeEigenvectors`
before the eigensolve: each entry is `applyGaussian` over a freshly mapped
product array (`Ix.map(v => v*v)`, `Ix.map((v,i) => v*Iy[i])`,
`Iy.map(v => v*v)`). -/
noncomputable def computeTensor (width height size : ℕ) (kernel : List ℝ)
    (Ix Iy : List ℚ) (x y : ℤ) : ℝ × ℝ × ℝ :=
  (applyGaussian width height size kernel x y
      (Ix.map (fun v : ℚ => ((v : ℝ) * (v : ℝ)))),
   applyGaussian width height size kernel x y
      (Ix.enum.map (fun p : ℕ × ℚ => ((p.2 : ℝ) * ((Iy.getD p.1 0 : ℚ) : ℝ)))),
   applyGaussian width height size kernel x y
      (Iy.map (fun v : ℚ => ((v : ℝ) * (v : ℝ)))))

lemma clampPix_nonneg (v : ℤ) (n : ℕ) (hn : 1 ≤ n) : 0 ≤ clampPix v n := by
  refine le_min (le_max_right v 0) ?_
  have : (1 : ℤ) ≤ (n : ℤ) := by exact_mod_cast hn
  omega

lemma clampPix_le (v : ℤ) (n : ℕ) : clampPix v n ≤ (n : ℤ) - 1 :=
  min_le_right _ _

lemma clampPix_of_nonpos (v : ℤ) (n : ℕ) (hv : v ≤ 0) (hn : 1 ≤ n) :
    clampPix v n = 0 := by
  rw [clampPix, max_eq_right hv]
  refine min_eq_left ?_
  have : (1 : ℤ) ≤ (n : ℤ) := by exact_mod_cast hn
  omega

lemma sampleIndex_lt (width height : ℕ) (px py : ℤ) (hw : 1 ≤ width) (hh : 1 ≤ height)
    (hpx0 : 0 ≤ px) (hpx1 : px ≤ (width : ℤ) - 1)
    (hpy0 : 0 ≤ py) (hpy1 : py ≤ (height : ℤ) - 1) :
    (py * (width : ℤ) + px).toNat < width * height := by
  have hmul : py * (width : ℤ) ≤ ((height : ℤ) - 1) * (width : ℤ) :=
    mul_le_mul_of_nonneg_right hpy1 (by positivity)
  have hsum : py * (width : ℤ) + px < ((width * height : ℕ) : ℤ) := by
    have hring : ((height : ℤ) - 1) * (width : ℤ) + ((width : ℤ) - 1) =
        (width : ℤ) * (height : ℤ) - 1 := by ring
    push_cast
    calc py * (width : ℤ) + px ≤ ((height : ℤ) - 1) * (width : ℤ) + ((width : ℤ) - 1) := by
          exact add_le_add hmul hpx1
      _ = (width : ℤ) * (height : ℤ) - 1 := hring
      _ < (width : ℤ) * (height : ℤ) := by omega
  have h0 : 0 ≤ py * (width : ℤ) + px := by positivity
  omega

/-- Claim C8 amended, first half: for every integer query point — including
out-of-range ones — the Gaussian accumulation is total and samples only
clamped, in-bounds pixel indices: its value depends on the component array
only through the `width*height` in-bounds entries. -/
theorem applyGaussian_clamped_inbounds (width height size : ℕ) (kernel : List ℝ)
    (x y : ℤ) (comp comp' : List ℝ) (hw : 1 ≤ width) (hh : 1 ≤ height)
    (h : ∀ i < width * height, comp.getD i 0 = comp'.getD i 0) :
    applyGaussian width height size kernel x y comp =
      applyGaussian width height size kernel x y comp' := by
  rw [applyGaussian, applyGaussian]
  apply Finset.sum_congr rfl
  intro j _
  apply Finset.sum_congr rfl
  intro i _
  congr 1
  apply h
  exact sampleIndex_lt width height _ _ hw hh
    (clampPix_nonneg _ _ hw) (clampPix_le _ _)
    (clampPix_nonneg _ _ hh) (clampPix_le _ _)

/-- Witness for the amended C8 theorem: on a 1×1 image, extending the
component array beyond the single in-bounds entry does not change the result. -/
theorem applyGaussian_clamped_inbounds_witness :
    applyGaussian 1 1 1 [(1 : ℝ)] 0 0 [(0 : ℝ)] =
      applyGaussian 1 1 1 [(1 : ℝ)] 0 0 [(0 : ℝ), 37] :=
  applyGaussian_clamped_inbounds 1 1 1 [(1 : ℝ)] 0 0 [(0 : ℝ)] [(0 : ℝ), 37]
    (by decide) (by decide)
    (fun i hi => by
      have hi0 : i = 0 := by omega
      subst hi0
      rfl)

lemma sq_map_getD (l : List ℚ) (n : ℕ) :
    (l.map (fun v : ℚ => ((v : ℝ) * (v : ℝ)))).getD n 0 =
      ((l.getD n 0 : ℚ) : ℝ) * ((l.getD n 0 : ℚ) : ℝ) := by
  rw [List.getD_eq_getElem?_getD, List.getD_eq_getElem?_getD, List.getElem?_map]
  cases h : l[n]? with
  | none => simp
  | some v => simp

lemma normKernel_getD_pos (size : ℕ) (sigma : ℝ) (hσ : 0 < sigma) (h1 : 1 ≤ size)
    (n : ℕ) (hn : n < size * size) :
    0 < ((rawKernel size sigma).map
      (fun v => v / (rawKernel size sigma).sum)).getD n 0 := by
  have hval : (rawKernel size sigma)[n]? = some (gaussValue size sigma n) := by
    simp [rawKernel, List.getElem?_map, List.getElem?_range, hn]
  rw [List.getD_eq_getElem?_getD, List.getElem?_map, hval]
  simp only [Option.map_some', Option.getD_some]
  exact div_pos (gaussValue_pos size sigma hσ n) (rawKernel_sum_pos size sigma hσ h1)

/-- The 10×10 RGBA test image of the C8 counterexample: pixel `(2, 1)`
(flat pixel index 12) is RGB `(100, 100, 100)`, every other pixel is black. -/
def stepImg : ℕ → ℕ := fun i => if i / 4 = 12 then 100 else 0

/-- The Gaussian kernel the page uses for `size = 3`, `sigma = 1` (the value
`generateGaussianKernel 3 1` succeeds with). -/
noncomputable def kernel3 : List ℝ :=
  (rawKernel 3 1).map (fun v => v / (rawKernel 3 1).sum)

lemma kernel3_getD_pos (n : ℕ) (hn : n < 9) : 0 < kernel3.getD n 0 :=
  normKernel_getD_pos 3 1 (by norm_num) (by norm_num) n (by omega)

lemma stepGrad_Ix11 :
    (computeGradients 10 10 stepImg).1.getD 11 0 = 200 := by
  have h := (computeGradients_interior 10 10 stepImg 1 1 (by norm_num) (by norm_num)
    (by norm_num) (by norm_num)).1
  have h11 : (1 : ℕ) * 10 + 1 = 11 := by norm_num
  rw [h11] at h
  rw [h]
  norm_num [gradXat, getGray, stepImg, sobelX, Finset.sum_range_succ]

lemma stepGrad_Ix0 :
    (computeGradients 10 10 stepImg).1.getD 0 0 = 0 := by
  have h := (computeGradients_border 10 10 stepImg 0 0 (by norm_num) (by norm_num)
    (by norm_num)).1
  have h0 : (0 : ℕ) * 10 + 0 = 0 := by norm_num
  rw [h0] at h
  exact h

lemma stepTensor_away_zero :
    applyGaussian 10 10 3 kernel3 (-5) (-5)
      ((computeGradients 10 10 stepImg).1.map (fun v : ℚ => ((v : ℝ) * (v : ℝ)))) = 0 := by
  rw [applyGaussian]
  apply Finset.sum_eq_zero
  intro j hj
  apply Finset.sum_eq_zero
  intro i hi
  rw [Finset.mem_range] at hj hi
  have hcy : clampPix (-5 + ((j : ℤ) - ((3 / 2 : ℕ) : ℤ))) 10 = 0 :=
    clampPix_of_nonpos _ _ (by omega) (by norm_num)
  have hcx : clampPix (-5 + ((i : ℤ) - ((3 / 2 : ℕ) : ℤ))) 10 = 0 :=
    clampPix_of_nonpos _ _ (by omega) (by norm_num)
  rw [hcy, hcx, zero_mul, zero_add, Int.toNat_zero, sq_map_getD, stepGrad_Ix0]
  norm_num

lemma stepTensor_origin_pos :
    0 < applyGaussian 10 10 3 kernel3 0 0
      ((computeGradients 10 10 stepImg).1.map (fun v : ℚ => ((v : ℝ) * (v : ℝ)))) := by
  rw [applyGaussian]
  apply Finset.sum_pos'
  · intro j hj
    apply Finset.sum_nonneg
    intro i hi
    rw [Finset.mem_range] at hj hi
    apply mul_nonneg
    · rw [sq_map_getD]
      exact mul_self_nonneg _
    · exact le_of_lt (kernel3_getD_pos (j * 3 + i) (by omega))
  · refine ⟨2, by norm_num, ?_⟩
    apply Finset.sum_pos'
    · intro i hi
      rw [Finset.mem_range] at hi
      apply mul_nonneg
      · rw [sq_map_getD]
        exact mul_self_nonneg _
      · exact le_of_lt (kernel3_getD_pos (2 * 3 + i) (by omega))
    · refine ⟨2, by norm_num, ?_⟩
      have hc : clampPix (0 + (((2 : ℕ) : ℤ) - ((3 / 2 : ℕ) : ℤ))) 10 = 1 := by
        rw [clampPix]
        decide
      rw [hc]
      have hidx : ((1 : ℤ) * ((10 : ℕ) : ℤ) + 1).toNat = 11 := by decide
      rw [hidx, sq_map_getD, stepGrad_Ix11]
      have h8 : (2 : ℕ) * 3 + 2 = 8 := by norm_num
      rw [h8]
      apply mul_pos
      · norm_num
      · exact kernel3_getD_pos 8 (by norm_num)

/-- Claim C8 counterexample: on the 10×10 image `stepImg` with the kernel the
page builds for `(size, sigma) = (3, 1)`, the structure tensor queried at
`(-5, -5)` (all nine samples clamp to pixel `(0, 0)`, whose gradient is the
border value `0`) is not the structure tensor queried at `(0, 0)` (whose
window also samples the interior pixel `(1, 1)` with gradient `200`). -/
theorem query_clamp_not_equivalent :
    generateGaussianKernel 3 1 = Except.ok kernel3 ∧
    computeTensor 10 10 3 kernel3 (computeGradients 10 10 stepImg).1
        (computeGradients 10 10 stepImg).2 (-5) (-5) ≠
      computeTensor 10 10 3 kernel3 (computeGradients 10 10 stepImg).1
        (computeGradients 10 10 stepImg).2 0 0 := by
  constructor
  · rw [kernel3]
    norm_num [generateGaussianKernel]
  · intro heq
    have h1 : applyGaussian 10 10 3 kernel3 (-5) (-5)
        ((computeGradients 10 10 stepImg).1.map (fun v : ℚ => ((v : ℝ) * (v : ℝ)))) =
        applyGaussian 10 10 3 kernel3 0 0
          ((computeGradients 10 10 stepImg).1.map (fun v : ℚ => ((v : ℝ) * (v : ℝ)))) :=
      congrArg Prod.fst heq
    rw [stepTensor_away_zero] at h1
    exact absurd h1.symm (ne_of_gt stepTensor_origin_pos)

/-- The module-level `gradients` store of the page (`{ Ix, Iy }`), shared by
every query. -/
structure GradState where
  Ix : List ℚ
  Iy : List ℚ

/-- The tensor part of `computeEigenvectors`, with the heap made explicit:
the function receives the `gradients` store and returns it alongside the
result. The three product arrays are created by `Array.prototype.map`, which
allocates fresh arrays (ECMA-262) — the body contains no assignment to
`gradients`, so the returned store is the received one. -/
noncomputable def computeTensorSt (width height size : ℕ) (kernel : List ℝ)
    (st : GradState) (x y : ℤ) : (ℝ × ℝ × ℝ) × GradState :=
  ((applyGaussian width height size kernel x y
      (st.Ix.map (fun v : ℚ => ((v : ℝ) * (v : ℝ)))),
    applyGaussian width height size kernel x y
      (st.Ix.enum.map (fun p : ℕ × ℚ => ((p.2 : ℝ) * ((st.Iy.getD p.1 0 : ℚ) : ℝ)))),
    applyGaussian width height size kernel x y
      (st.Iy.map (fun v : ℚ => ((v : ℝ) * (v : ℝ))))),
   st)

/-- Claim C10: a structure-tensor query leaves the cached gradient field
untouched — threading the `gradients` store through the query returns it
unchanged, and the tensor computed from the store equals the pure tensor of
its `Ix`/`Iy` arrays (the squared/cross products are fresh `map` results,
never in-place writes). -/
theorem query_preserves_gradients (width height size : ℕ) (kernel : List ℝ)
    (st : GradState) (x y : ℤ) :
    (computeTensorSt width height size kernel st x y).2 = st ∧
    (computeTensorSt width height size kernel st x y).1 =
      computeTensor width height size kernel st.Ix st.Iy x y :=
  ⟨rfl, rfl⟩

/-!
The display stage of `drawOverlay` (lines 213–242).

`eigenvalues.sort()` is JavaScript's default `Array.prototype.sort`: it
compares the *string representations* of the numbers by UTF-16 code units,
and it sorts the array **in place** — so by the time the arrows are drawn,
`eigenvalues[i]` is the string-sorted value, not the scaled eigenvalue of
`eigenvectors[i]`. The number-to-string conversion is modelled on `ℚ` by
`jsNumRepr`; it agrees with JavaScript's `Number#toString` on every value at
which the theorems below evaluate it (integers, where both print the plain
decimal digits).
-/

/-- Decimal digits of the fractional part `q ∈ [0, 1)`, with fuel (20 digits
is beyond the precision a JS double prints). -/
def fracDigits : ℕ → ℚ → String
  | 0, _ => ""
  | n + 1, q =>
    if q = 0 then ""
    else toString ⌊q * 10⌋ ++ fracDigits n (q * 10 - (⌊q * 10⌋ : ℚ))

/-- Decimal representation of a non-negative rational. -/
def jsNumReprNonneg (q : ℚ) : String :=
  if q - (⌊q⌋ : ℚ) = 0 then toString ⌊q⌋.toNat
  else toString ⌊q⌋.toNat ++ "." ++ fracDigits 20 (q - (⌊q⌋ : ℚ))

/-- The string JavaScript's default sort comparator compares: the decimal
representation of the number, with a leading minus sign when negative. -/
def jsNumRepr (q : ℚ) : String :=
  if q < 0 then "-" ++ jsNumReprNonneg (-q) else jsNumReprNonneg q

/-- UTF-16 code-unit order on strings (as lists of characters), the order
used by JavaScript's default sort comparator. -/
def codeUnitLt : List Char → List Char → Bool
  | [], [] => false
  | [], _ :: _ => true
  | _ :: _, [] => false
  | a :: as, b :: bs =>
    if a < b then true else if b < a then false else codeUnitLt as bs

/-- Stable insertion of `a` into a list already sorted ascending by
`jsNumRepr` string order. -/
def jsInsert (a : ℚ) : List ℚ → List ℚ
  | [] => [a]
  | b :: bs =>
    if codeUnitLt (jsNumRepr b).data (jsNumRepr a).data then b :: jsInsert a bs
    else a :: b :: bs

/-- JavaScript's default `Array.prototype.sort`: ascending by the code-unit
order of the elements' string representations (modelled as a stable insertion
sort, which produces the same ordering). -/
def jsSortNums : List ℚ → List ℚ
  | [] => []
  | a :: as => jsInsert a (jsSortNums as)

/-- `Number#toFixed()` (zero digits): round to the nearest integer, ties
toward the larger candidate. -/
def toFixed0 (q : ℚ) : ℤ := ⌊q + 1 / 2⌋

/-- Lines 213–216 of `drawOverlay`: scale the eigenvalues by `1/1000`
(`eigenvectors.map(vec => vec.value / 1000)`), sort with the default sort,
and display `lambda1 = sort()[1].toFixed()`, `lambda2 = sort()[0].toFixed()`.
Input: the eigenvalue list in the order the solver returned it. -/
def displayLambdas (vals : List ℚ) : ℤ × ℤ :=
  (toFixed0 ((jsSortNums (vals.map (fun v => v / 1000))).getD 1 0),
   toFixed0 ((jsSortNums (vals.map (fun v => v / 1000))).getD 0 0))

/-- Lines 233–242 of `drawOverlay`: the arrow drawn for eigenpair `i` has
displacement `vector_i * eigenvalues[i]` — where `eigenvalues` is the array
*after* the in-place sort of line 215. Input: the solver's eigenpairs
`(value, vx, vy)` in solver order; output: the arrow displacement vectors. -/
def arrowScaledVectors (eig : List (ℚ × ℚ × ℚ)) : List (ℚ × ℚ) :=
  (eig.enum).map (fun p : ℕ × ℚ × ℚ × ℚ =>
    (p.2.2.1 * ((jsSortNums ((eig.map (fun e => e.1)).map (fun v => v / 1000))).getD p.1 0),
     p.2.2.2 * ((jsSortNums ((eig.map (fun e => e.1)).map (fun v => v / 1000))).getD p.1 0)))

lemma jsNumRepr_natCast (n : ℕ) : jsNumRepr (n : ℚ) = toString n := by
  rw [jsNumRepr, if_neg (not_lt.mpr (by positivity)), jsNumReprNonneg]
  rw [Int.floor_natCast]
  rw [if_pos (by push_cast; ring)]
  norm_num

lemma jsNumRepr_two : jsNumRepr 2 = "2" := by
  rw [show (2 : ℚ) = ((2 : ℕ) : ℚ) by norm_num, jsNumRepr_natCast]
  rfl

lemma jsNumRepr_ten : jsNumRepr 10 = "10" := by
  rw [show (10 : ℚ) = ((10 : ℕ) : ℚ) by norm_num, jsNumRepr_natCast]
  rfl

/-- The string sort puts `10` before `2`: "10" precedes "2" in code-unit
order. -/
lemma jsSort_two_ten : jsSortNums [(2 : ℚ), 10] = [10, 2] := by
  have hlt : codeUnitLt (jsNumRepr 10).data (jsNumRepr 2).data = true := by
    rw [jsNumRepr_two, jsNumRepr_ten]
    decide
  simp [jsSortNums, jsInsert, hlt]

lemma jsSort_ten_two : jsSortNums [(10 : ℚ), 2] = [10, 2] := by
  have hlt : codeUnitLt (jsNumRepr 2).data (jsNumRepr 10).data = false := by
    rw [jsNumRepr_two, jsNumRepr_ten]
    decide
  simp [jsSortNums, jsInsert, hlt]

/-- Claim C1 evaluated at a failing query: when the solver returns
eigenvalues `2000` and `10000` (scaled: `2` and `10` — e.g. the tensor
`diag(2000, 10000)`), the default string sort orders them `[10, 2]`
("10" < "2" by code units), so the page displays `lambda1 = 2`,
`lambda2 = 10`: `lambda1 < lambda2`, in either solver order. -/
theorem displayLambdas_violates_order :
    displayLambdas [2000, 10000] = (2, 10) ∧
    displayLambdas [10000, 2000] = (2, 10) ∧
    (displayLambdas [2000, 10000]).1 < (displayLambdas [2000, 10000]).2 := by
  have hmap1 : ([2000, 10000] : List ℚ).map (fun v => v / 1000) = [2, 10] := by
    norm_num
  have hmap2 : ([10000, 2000] : List ℚ).map (fun v => v / 1000) = [10, 2] := by
    norm_num
  have h1 : displayLambdas [2000, 10000] = (2, 10) := by
    rw [displayLambdas, hmap1, jsSort_two_ten]
    norm_num [toFixed0]
  have h2 : displayLambdas [10000, 2000] = (2, 10) := by
    rw [displayLambdas, hmap2, jsSort_ten_two]
    norm_num [toFixed0]
  refine ⟨h1, h2, ?_⟩
  rw [h1]
  norm_num

/-- Claim C2 evaluated at a failing query: with solver output
`[(2000, (1,0)), (10000, (0,1))]` (mathjs `eigs` returns eigenvalues in
ascending order), the in-place string sort permutes the scaled eigenvalue
array to `[10, 2]`, so arrow 0 scales the `2000`-eigenvector by `10` and
arrow 1 scales the `10000`-eigenvector by `2` — not the pairing the claim
requires (each vector scaled by its own unsorted-index eigenvalue). -/
theorem arrows_repaired_after_sort :
    arrowScaledVectors [(2000, 1, 0), (10000, 0, 1)] = [(10, 0), (0, 2)] ∧
    arrowScaledVectors [(2000, 1, 0), (10000, 0, 1)] ≠
      ([(2000, 1, 0), (10000, 0, 1)] : List (ℚ × ℚ × ℚ)).map
        (fun e => (e.2.1 * (e.1 / 1000), e.2.2 * (e.1 / 1000))) := by
  have hmap : ((([(2000, 1, 0), (10000, 0, 1)] : List (ℚ × ℚ × ℚ)).map
      (fun e => e.1)).map (fun v => v / 1000)) = [2, 10] := by
    norm_num
  have h1 : arrowScaledVectors [(2000, 1, 0), (10000, 0, 1)] = [(10, 0), (0, 2)] := by
    rw [arrowScaledVectors, hmap, jsSort_two_ten]
    norm_num [List.enum, List.enumFrom]
  refine ⟨h1, ?_⟩
  rw [h1]
  intro h
  have := List.head_eq_of_cons_eq h
  norm_num at this

/-!
The eigendecomposition itself is performed by the external mathjs `eigs`
routine (`eigs(M).eigenvectors`), whose source is not part of this
repository. The solver is therefore modelled from the spec (§4.5
SymmetricEigensolver2x2): closed-form eigenvalues
`λ = trace/2 ± sqrt(max(trace²/4 − det, 0))` and, per eigenvalue,
eigenvector `normalize((b, λ − a))` when `b ≠ 0`, else the axis-aligned unit
vector matching `a` resp. `d`.
-/

/-- Modelled from the spec: the clamped discriminant
`sqrt(max(trace²/4 − det, 0))` of §4.5. -/
noncomputable def eigDisc (a b d : ℝ) : ℝ :=
  Real.sqrt (max ((a + d) ^ 2 / 4 - (a * d - b * b)) 0)

/-- Modelled from the spec: the larger closed-form eigenvalue
`trace/2 + disc`. -/
noncomputable def eigL1 (a b d : ℝ) : ℝ := (a + d) / 2 + eigDisc a b d

/-- Modelled from the spec: the smaller closed-form eigenvalue
`trace/2 − disc`. -/
noncomputable def eigL2 (a b d : ℝ) : ℝ := (a + d) / 2 - eigDisc a b d

/-- Modelled from the spec: for `b ≠ 0`, the unit eigenvector
`normalize((b, λ − a))` for eigenvalue `λ`. -/
noncomputable def eigVec (a b l : ℝ) : ℝ × ℝ :=
  (b / Real.sqrt (b * b + (l - a) * (l - a)),
   (l - a) / Real.sqrt (b * b + (l - a) * (l - a)))

/-- Modelled from the spec: `SymmetricEigensolver2x2` on `[[a, b], [b, d]]` —
two `(eigenvalue, vx, vy)` triples; when `b = 0` the axis-aligned unit
vectors are assigned to the eigenvalue they match (`(1,0)` to `a`, `(0,1)`
to `d`). -/
noncomputable def symEig (a b d : ℝ) : (ℝ × ℝ × ℝ) × (ℝ × ℝ × ℝ) :=
  if b = 0 then
    if d ≤ a then ((eigL1 a b d, 1, 0), (eigL2 a b d, 0, 1))
    else ((eigL1 a b d, 0, 1), (eigL2 a b d, 1, 0))
  else
    ((eigL1 a b d, (eigVec a b (eigL1 a b d)).1, (eigVec a b (eigL1 a b d)).2),
     (eigL2 a b d, (eigVec a b (eigL2 a b d)).1, (eigVec a b (eigL2 a b d)).2))

lemma eigDisc_sq (a b d : ℝ) :
    eigDisc a b d ^ 2 = (a + d) ^ 2 / 4 - (a * d - b * b) := by
  have hD : (a + d) ^ 2 / 4 - (a * d - b * b) = ((a - d) / 2) ^ 2 + b ^ 2 := by
    ring
  have hD0 : 0 ≤ (a + d) ^ 2 / 4 - (a * d - b * b) := by
    rw [hD]
    positivity
  rw [eigDisc, max_eq_left hD0, Real.sq_sqrt hD0]

lemma eig_sum (a b d : ℝ) : eigL1 a b d + eigL2 a b d = a + d := by
  rw [eigL1, eigL2]
  ring

lemma eig_prod (a b d : ℝ) : eigL1 a b d * eigL2 a b d = a * d - b * b := by
  have h : eigL1 a b d * eigL2 a b d = ((a + d) / 2) ^ 2 - eigDisc a b d ^ 2 := by
    rw [eigL1, eigL2]
    ring
  rw [h, eigDisc_sq]
  ring

lemma eigVec_nsq_pos (a b l : ℝ) (hb : b ≠ 0) :
    0 < b * b + (l - a) * (l - a) :=
  add_pos_of_pos_of_nonneg (mul_self_pos.mpr hb) (mul_self_nonneg _)

lemma eigVec_norm (a b l : ℝ) (hb : b ≠ 0) :
    Real.sqrt ((eigVec a b l).1 ^ 2 + (eigVec a b l).2 ^ 2) = 1 := by
  have hn2 := eigVec_nsq_pos a b l hb
  have hs : Real.sqrt (b * b + (l - a) * (l - a)) ^ 2 = b * b + (l - a) * (l - a) :=
    Real.sq_sqrt hn2.le
  have hspos : 0 < Real.sqrt (b * b + (l - a) * (l - a)) := Real.sqrt_pos.mpr hn2
  have h1 : (eigVec a b l).1 ^ 2 + (eigVec a b l).2 ^ 2 = 1 := by
    rw [eigVec]
    rw [div_pow, div_pow, div_add_div_same, hs]
    rw [show b ^ 2 + (l - a) ^ 2 = b * b + (l - a) * (l - a) by ring]
    exact div_self (ne_of_gt hn2)
  rw [h1, Real.sqrt_one]

lemma eig_shift_prod (a b d : ℝ) :
    (eigL1 a b d - a) * (eigL2 a b d - a) = -(b * b) := by
  have h : (eigL1 a b d - a) * (eigL2 a b d - a) =
      ((d - a) / 2) ^ 2 - eigDisc a b d ^ 2 := by
    rw [eigL1, eigL2]
    ring
  rw [h, eigDisc_sq]
  ring

lemma eigVec_orth (a b d : ℝ) (hb : b ≠ 0) :
    (eigVec a b (eigL1 a b d)).1 * (eigVec a b (eigL2 a b d)).1 +
      (eigVec a b (eigL1 a b d)).2 * (eigVec a b (eigL2 a b d)).2 = 0 := by
  rw [eigVec, eigVec]
  rw [div_mul_div_comm, div_mul_div_comm, div_add_div_same]
  rw [show b * b + (eigL1 a b d - a) * (eigL2 a b d - a) =
      b * b + ((eigL1 a b d - a) * (eigL2 a b d - a)) by ring,
    eig_shift_prod]
  norm_num

/-- Claim C7: for every symmetric 2×2 structure tensor `[[a, b], [b, d]]`,
the two eigenvalues returned by the (spec-modelled) solver satisfy
`λ1 + λ2 = trace` and `λ1·λ2 = det` (exactly, hence within any floating
tolerance), and the two returned eigenvectors are unit length and mutually
orthogonal. -/
theorem symEig_spec (a b d : ℝ) :
    (symEig a b d).1.1 + (symEig a b d).2.1 = a + d ∧
    (symEig a b d).1.1 * (symEig a b d).2.1 = a * d - b * b ∧
    Real.sqrt ((symEig a b d).1.2.1 ^ 2 + (symEig a b d).1.2.2 ^ 2) = 1 ∧
    Real.sqrt ((symEig a b d).2.2.1 ^ 2 + (symEig a b d).2.2.2 ^ 2) = 1 ∧
    (symEig a b d).1.2.1 * (symEig a b d).2.2.1 +
      (symEig a b d).1.2.2 * (symEig a b d).2.2.2 = 0 := by
  by_cases hb : b = 0
  · rw [symEig, if_pos hb]
    by_cases hda : d ≤ a
    · rw [if_pos hda]
      refine ⟨eig_sum a b d, eig_prod a b d, ?_, ?_, ?_⟩ <;>
        norm_num [Real.sqrt_one]
    · rw [if_neg hda]
      refine ⟨eig_sum a b d, eig_prod a b d, ?_, ?_, ?_⟩ <;>
        norm_num [Real.sqrt_one]
  · rw [symEig, if_neg hb]
    exact ⟨eig_sum a b d, eig_prod a b d, eigVec_norm a b _ hb,
      eigVec_norm a b _ hb, eigVec_orth a b d hb⟩

end StructTensor
